import Mathlib

/-!
Shallow embedding of the CEXY matching-engine core and market-data pipeline.

The Rust sources embedded here are `engine-core/src/orderbook/orderbook.rs`,
`engine-core/src/engine.rs` and `market-data/src/aggregator.rs`.  Prices,
quantities and identifiers are Rust `u64` values modelled as `Nat` (the only
u64 arithmetic that can wrap is `saturating_add`, modelled explicitly with a
cap at `2 ^ 64 - 1`); timestamps are `i64` modelled as `Int`.  The `BTreeMap`
price ladders are modelled as association lists kept sorted by ascending key,
and the `HashMap` order index as an unsorted association list, with lookup /
insert / erase operations mirroring the Rust ones.
-/

set_option autoImplicit false

namespace CEXY

/-- Side of an order, from `protocol` (`Side` in the protocol crate tests). -/
inductive Side where
  | Buy
  | Sell
deriving DecidableEq

/-- Order type, from the protocol crate tests (`OrderType::Limit/Market`). -/
inductive OrderType where
  | Limit
  | Market
deriving DecidableEq

/-- Modelled from the spec: `OrderBookError` lives in the absent
`engine-core/src/error.rs`; the two variants used by
`orderbook.rs` are `InvalidOrder(String)` and `OrderNotFound(OrderId)`. -/
inductive OrderBookError where
  | InvalidOrder (msg : String)
  | OrderNotFound (order_id : Nat)
deriving DecidableEq

instance exceptDecEq {ε α : Type} [DecidableEq ε] [DecidableEq α] :
    DecidableEq (Except ε α) := fun x y =>
  match x, y with
  | Except.error a, Except.error b =>
    if h : a = b then Decidable.isTrue (by rw [h]) else Decidable.isFalse (by simp [h])
  | Except.ok a, Except.ok b =>
    if h : a = b then Decidable.isTrue (by rw [h]) else Decidable.isFalse (by simp [h])
  | Except.error _, Except.ok _ => Decidable.isFalse (by simp)
  | Except.ok _, Except.error _ => Decidable.isFalse (by simp)

/-- Reject reasons, stable wire names from spec section 6 and the protocol tests. -/
inductive RejectReason where
  | InvalidPrice
  | InvalidOrder
  | InvalidQuantity
  | InsufficientBalance
  | SymbolNotFound
  | MarketClosed
  | InternalError
deriving DecidableEq

/-- Cancel reasons, stable wire names from spec section 6 and the protocol tests. -/
inductive CancelReason where
  | UserRequested
  | SystemCancelled
  | Expired
  | Liquidation
deriving DecidableEq

section AssocHelpers

variable {κ : Type} {β : Type} [DecidableEq κ]

/-- Association-list lookup (the map `get` of `BTreeMap`/`HashMap`). -/
def alookup (k : κ) : List (κ × β) → Option β
  | [] => none
  | (k1, v) :: rest => if k = k1 then some v else alookup k rest

/-- Replace the value stored under `k`, when present (the `get_mut` update
pattern of the Rust code; an absent key leaves the list unchanged). -/
def areplace (k : κ) (v : β) : List (κ × β) → List (κ × β)
  | [] => []
  | (k1, v1) :: rest => if k = k1 then (k, v) :: rest else (k1, v1) :: areplace k v rest

/-- Remove the entry stored under `k`, when present (`remove` on the maps). -/
def aerase (k : κ) : List (κ × β) → List (κ × β)
  | [] => []
  | (k1, v1) :: rest => if k = k1 then rest else (k1, v1) :: aerase k rest

/-- `HashMap::insert`: overwrite the binding of `k` (representation chosen so
that the freshest binding is found first; lookup-equivalent to the Rust map). -/
def hmInsert (k : κ) (v : β) (m : List (κ × β)) : List (κ × β) :=
  (k, v) :: aerase k m

@[simp] theorem alookup_hmInsert_self (k : κ) (v : β) (m : List (κ × β)) :
    alookup k (hmInsert k v m) = some v := by
  simp [hmInsert, alookup]

end AssocHelpers

section SortedHelpers

variable {β : Type}

/-- `BTreeMap::insert` of a fresh key: insert keeping keys sorted ascending. -/
def sortedInsert (k : Nat) (v : β) : List (Nat × β) → List (Nat × β)
  | [] => [(k, v)]
  | (k1, v1) :: rest =>
    if k < k1 then (k, v) :: (k1, v1) :: rest
    else if k = k1 then (k, v) :: rest
    else (k1, v1) :: sortedInsert k v rest

/-- `keys().next()` on a `BTreeMap`: the least key. -/
def headKey (m : List (Nat × β)) : Option Nat :=
  (m.map Prod.fst).head?

/-- `keys().next_back()` on a `BTreeMap`: the greatest key. -/
def lastKey (m : List (Nat × β)) : Option Nat :=
  (m.map Prod.fst).getLast?

end SortedHelpers

/-- A resting order, `OrderEntry` in `orderbook.rs`. -/
structure OrderEntry where
  order_id : Nat
  user_id : Nat
  side : Side
  price : Nat
  quantity : Nat
  remaining_quantity : Nat
  timestamp : Int
deriving DecidableEq

/-- `OrderEntry::validate_order`: quantity must be nonzero and price must be
strictly positive (`price <= 0` on a u64 means `price == 0`).  Note that the
check is the same for every order; the order type is not consulted. -/
def OrderEntry.validate_order (o : OrderEntry) : Except OrderBookError Unit :=
  if o.quantity = 0 then
    Except.error (OrderBookError.InvalidOrder ("Quantity must be greater than 0"))
  else if o.price = 0 then
    Except.error (OrderBookError.InvalidOrder ("Price must be greater than 0"))
  else Except.ok ()

/-- `OrderEntry::fill`: decrement `remaining_quantity`, failing when asked to
fill more than remains. -/
def OrderEntry.fill (o : OrderEntry) (qty : Nat) : Except OrderBookError OrderEntry :=
  if qty > o.remaining_quantity then
    Except.error (OrderBookError.InvalidOrder
      ("Quantity must be less than or equal to the remaining quantity"))
  else Except.ok { o with remaining_quantity := o.remaining_quantity - qty }

/-- Modelled from the spec: `PriceLevel` lives in the absent
`engine-core/src/orderbook/price_levels.rs`; spec section 4.1 gives a FIFO of
order ids plus an aggregate `total_quantity`. -/
structure PriceLevel where
  price : Nat
  orders : List Nat
  total_quantity : Nat
deriving DecidableEq

/-- Modelled from the spec: `PriceLevel::new`. -/
def PriceLevel.new (p : Nat) : PriceLevel :=
  { price := p, orders := [], total_quantity := 0 }

/-- Modelled from the spec: `PriceLevel::add_order` appends to the tail and adds
to `total_quantity` (spec section 4.1). -/
def PriceLevel.add_order (l : PriceLevel) (oid qty : Nat) : PriceLevel :=
  { l with orders := l.orders ++ [oid], total_quantity := l.total_quantity + qty }

/-- Modelled from the spec: `PriceLevel::remove_order` removes `oid` from the
FIFO and subtracts `qty` from `total_quantity`; when the id is absent it is a
no-op (spec section 4.1). -/
def PriceLevel.remove_order (l : PriceLevel) (oid qty : Nat) : PriceLevel :=
  if l.orders.contains oid then
    { l with orders := l.orders.erase oid, total_quantity := l.total_quantity - qty }
  else l

/-- Modelled from the spec: `PriceLevel::is_empty`. -/
def PriceLevel.is_empty (l : PriceLevel) : Bool :=
  l.orders.isEmpty

/-- Modelled from the spec: `PriceLevel::get_total_quantity`. -/
def PriceLevel.get_total_quantity (l : PriceLevel) : Nat :=
  l.total_quantity

/-- Modelled from the spec: `CACHE_LIMIT` lives in the absent
`engine-core/src/orderbook/types.rs`; the spec only calls it a fixed cap, so a
representative constant is used (no claim depends on the exact value). -/
def CACHE_LIMIT : Nat := 10

/-- `CachedDepth` from the absent `types.rs`; its shape is pinned by
`orderbook.rs` itself: two `[(Price, Quantity); CACHE_LIMIT]` arrays (modelled
as lists of that length) plus the `is_latest` flag. -/
structure CachedDepth where
  bids : List (Nat × Nat)
  asks : List (Nat × Nat)
  is_latest : Bool
deriving DecidableEq

/-- Modelled from the spec: `CachedDepth::new` from the absent `types.rs`; the
arrays start zeroed and the cache starts dirty (`get_depth` lazily recomputes). -/
def CachedDepth.new : CachedDepth :=
  { bids := List.replicate CACHE_LIMIT (0, 0)
    asks := List.replicate CACHE_LIMIT (0, 0)
    is_latest := false }

/-- `Depth` returned by `get_depth` (shape pinned by `orderbook.rs`). -/
structure Depth where
  bids : List (Nat × Nat)
  asks : List (Nat × Nat)
deriving DecidableEq

/-- The per-symbol order book, `OrderBook` in `orderbook.rs`.  The ladders are
sorted ascending by price; `orders` is the id index. -/
structure OrderBook where
  symbol : String
  asks : List (Nat × PriceLevel)
  bids : List (Nat × PriceLevel)
  orders : List (Nat × OrderEntry)
  depth_cache : CachedDepth
  best_bid : Option Nat
  best_ask : Option Nat
  next_trade_id : Nat
deriving DecidableEq

/-- `OrderBook::new`. -/
def OrderBook.new (symbol : String) : OrderBook :=
  { symbol := symbol, asks := [], bids := [], orders := []
    depth_cache := CachedDepth.new, best_bid := none, best_ask := none
    next_trade_id := 0 }

/-- `OrderBook::add_order`: validate, insert into the index, append to the
price level (creating it if absent), bump the best price, dirty the cache. -/
def OrderBook.add_order (b : OrderBook) (o : OrderEntry) : Except OrderBookError OrderBook :=
  match o.validate_order with
  | Except.error e => Except.error e
  | Except.ok _ =>
    let b1 : OrderBook := { b with orders := hmInsert o.order_id o b.orders }
    let b2 : OrderBook :=
      match o.side with
      | Side.Buy =>
        let bids1 :=
          match alookup o.price b1.bids with
          | some lvl => areplace o.price (lvl.add_order o.order_id o.quantity) b1.bids
          | none => sortedInsert o.price ((PriceLevel.new o.price).add_order o.order_id o.quantity) b1.bids
        let bb :=
          if b1.best_bid = none ∨ o.price > b1.best_bid.getD 0 then some o.price
          else b1.best_bid
        { b1 with bids := bids1, best_bid := bb }
      | Side.Sell =>
        let asks1 :=
          match alookup o.price b1.asks with
          | some lvl => areplace o.price (lvl.add_order o.order_id o.quantity) b1.asks
          | none => sortedInsert o.price ((PriceLevel.new o.price).add_order o.order_id o.quantity) b1.asks
        let ba :=
          if b1.best_ask = none ∨ o.price < b1.best_ask.getD 0 then some o.price
          else b1.best_ask
        { b1 with asks := asks1, best_ask := ba }
    Except.ok { b2 with depth_cache := { b2.depth_cache with is_latest := false } }

/-- `OrderBook::remove_order`: remove from the index, remove from the level by
remaining quantity, prune an emptied level and recompute the best price from
the new extremum, dirty the cache.  An unknown id is `OrderNotFound` and the
book is untouched. -/
def OrderBook.remove_order (b : OrderBook) (oid : Nat) :
    OrderBook × Except OrderBookError (Option OrderEntry) :=
  match alookup oid b.orders with
  | none => (b, Except.error (OrderBookError.OrderNotFound oid))
  | some o =>
    let b1 : OrderBook := { b with orders := aerase oid b.orders }
    let b2 : OrderBook :=
      match o.side with
      | Side.Buy =>
        match alookup o.price b1.bids with
        | none => b1
        | some lvl =>
          let lvl1 := lvl.remove_order oid o.remaining_quantity
          if lvl1.is_empty then
            let bids1 := aerase o.price b1.bids
            let bb := if b1.best_bid = some o.price then lastKey bids1 else b1.best_bid
            { b1 with bids := bids1, best_bid := bb }
          else { b1 with bids := areplace o.price lvl1 b1.bids }
      | Side.Sell =>
        match alookup o.price b1.asks with
        | none => b1
        | some lvl =>
          let lvl1 := lvl.remove_order oid o.remaining_quantity
          if lvl1.is_empty then
            let asks1 := aerase o.price b1.asks
            let ba := if b1.best_ask = some o.price then headKey asks1 else b1.best_ask
            { b1 with asks := asks1, best_ask := ba }
          else { b1 with asks := areplace o.price lvl1 b1.asks }
    ({ b2 with depth_cache := { b2.depth_cache with is_latest := false } }, Except.ok (some o))

/-- `collect_to_fixed_array` in `orderbook.rs`: a `[(0, 0); CACHE_LIMIT]`
array whose first entries are overwritten by the first `CACHE_LIMIT` items of
the iterator; the array length is always `CACHE_LIMIT`. -/
def collect_to_fixed_array (l : List (Nat × Nat)) : List (Nat × Nat) :=
  l.take CACHE_LIMIT ++ List.replicate (CACHE_LIMIT - (l.take CACHE_LIMIT).length) (0, 0)

/-- `OrderBook::update_depth_cache`: recompute both sides (bids iterated in
reverse, i.e. highest price first) and mark the cache latest. -/
def OrderBook.update_depth_cache (b : OrderBook) : OrderBook :=
  if b.depth_cache.is_latest then b
  else
    { b with depth_cache :=
        { bids := collect_to_fixed_array
            (b.bids.reverse.map (fun pl => (pl.1, pl.2.get_total_quantity)))
          asks := collect_to_fixed_array
            (b.asks.map (fun pl => (pl.1, pl.2.get_total_quantity)))
          is_latest := true } }

/-- `OrderBook::get_depth`: refresh the cache when dirty, then slice both cache
arrays at `len().min(limit)` — `len()` being the fixed array length. -/
def OrderBook.get_depth (b : OrderBook) (limit : Nat) : Depth × OrderBook :=
  let b1 := if b.depth_cache.is_latest then b else b.update_depth_cache
  ({ bids := b1.depth_cache.bids.take (min b1.depth_cache.bids.length limit)
     asks := b1.depth_cache.asks.take (min b1.depth_cache.asks.length limit) }, b1)

/-- `OrderBook::get_next_matchable_order`: FIFO head of the best opposing level. -/
def OrderBook.get_next_matchable_order (b : OrderBook) (side : Side) : Option Nat :=
  match side with
  | Side.Buy => b.best_ask.bind fun p => (alookup p b.asks).bind fun lvl => lvl.orders.head?
  | Side.Sell => b.best_bid.bind fun p => (alookup p b.bids).bind fun lvl => lvl.orders.head?

/-- `OrderBook::update_order_quantity`: fill the indexed order in place, then
either remove the (fully filled) order from its level or subtract from the
level total.  A missing id or an over-fill is logged and nothing changes.
Mirrors the source exactly: the emptied level is not pruned, the order stays
in the index, the best prices are not recomputed and the depth cache is not
dirtied. -/
def OrderBook.update_order_quantity (b : OrderBook) (oid fq : Nat) : OrderBook :=
  match alookup oid b.orders with
  | none => b
  | some o =>
    let remaining_before := o.remaining_quantity
    match o.fill fq with
    | Except.error _ => b
    | Except.ok o1 =>
      let b1 : OrderBook := { b with orders := areplace oid o1 b.orders }
      match o.side with
      | Side.Buy =>
        match alookup o.price b1.bids with
        | none => b1
        | some lvl =>
          let lvl1 :=
            if remaining_before = fq then lvl.remove_order oid fq
            else { lvl with total_quantity := lvl.total_quantity - fq }
          { b1 with bids := areplace o.price lvl1 b1.bids }
      | Side.Sell =>
        match alookup o.price b1.asks with
        | none => b1
        | some lvl =>
          let lvl1 :=
            if remaining_before = fq then lvl.remove_order oid fq
            else { lvl with total_quantity := lvl.total_quantity - fq }
          { b1 with asks := areplace o.price lvl1 b1.asks }

/-! ### Engine loop (`engine-core/src/engine.rs`)

The engine command/event types come from the protocol crate, whose `types.rs`
is absent; the field shapes below are pinned by `protocol/src/tests.rs` and
by the constructions in `engine.rs` itself (the `OrderReject` built by the
engine carries `order_id`, `user_id` and `reason`). -/

/-- `Order` of a `PlaceOrder` command (protocol crate; `price` is optional). -/
structure Order where
  order_id : Nat
  user_id : Nat
  symbol : String
  side : Side
  order_type : OrderType
  quantity : Nat
  price : Option Nat
deriving DecidableEq

/-- `CancelOrder` command (protocol crate). -/
structure CancelOrder where
  order_id : Nat
  user_id : Nat
  symbol : String
deriving DecidableEq

/-- The engine events constructed by `engine.rs`. -/
inductive Event where
  | OrderAck (order_id user_id : Nat) (symbol : String)
  | OrderReject (order_id user_id : Nat) (reason : RejectReason)
  | OrderCancelled (order_id user_id : Nat) (symbol : String) (reason : CancelReason)
deriving DecidableEq

/-- `Engine::handle_place_order`, as the list of events it sends: a zero
quantity is rejected with `InvalidQuantity`, anything else is acked.  The
engine never reads `order_type` or `price` (matching is a TODO in the source). -/
def handle_place_order (o : Order) : List Event :=
  if o.quantity = 0 then
    [Event.OrderReject o.order_id o.user_id RejectReason.InvalidQuantity]
  else
    [Event.OrderAck o.order_id o.user_id o.symbol]

/-- `Engine::handle_cancel_order`, as the list of events it sends: it
unconditionally emits `OrderCancelled` with reason `UserRequested`; the engine
owns no book and performs no lookup (cancellation in the book is a TODO in the
source). -/
def handle_cancel_order (c : CancelOrder) : List Event :=
  [Event.OrderCancelled c.order_id c.user_id c.symbol CancelReason.UserRequested]

/-! ### Matcher

`OrderBook::match_limit_order` and `OrderBook::match_market_order` in
`orderbook.rs` validate the incoming order and then end in `todo!()`; only
their validation prefix exists.  The match loop below is modelled from spec
section 4.3 (steps 2a-2g and the residual policy in step 3), driving the
`orderbook.rs` operations `get_next_matchable_order`, `update_order_quantity`
and `add_order` that do exist in the source. -/

/-- `Trade` emitted at each fill (field shape from the protocol crate tests;
the model stamps `timestamp` 0 in place of the wall clock). -/
structure Trade where
  trade_id : Nat
  maker_order_id : Nat
  maker_user_id : Nat
  taker_order_id : Nat
  taker_user_id : Nat
  symbol : String
  price : Nat
  quantity : Nat
  timestamp : Int
deriving DecidableEq

/-- One fill of the match loop, together with the book state and the taker's
remaining quantity just before that fill. -/
structure StepRec where
  preBook : OrderBook
  preRem : Nat
  trade : Trade
deriving DecidableEq

/-- Modelled from the spec: result of a match call; `trades` below projects
the emitted trades out of the recorded fills. -/
structure MatchResult where
  steps : List StepRec
  remaining : Nat
deriving DecidableEq

/-- The trades emitted by a match call, in order. -/
def MatchResult.trades (r : MatchResult) : List Trade :=
  r.steps.map StepRec.trade

/-- Modelled from the spec: step 2b, marketability of the candidate for a
limit order (a market order, `lp = none`, matches any candidate). -/
def marketable (side : Side) (lp : Option Nat) (candPrice : Nat) : Bool :=
  match lp with
  | none => true
  | some p =>
    match side with
    | Side.Buy => decide (candPrice ≤ p)
    | Side.Sell => decide (p ≤ candPrice)

/-- Modelled from the spec: step 2d, the emitted trade.  `fill_price` is the
candidate's (maker's) resting price, `fill_qty` the minimum of the two
remaining quantities. -/
def mkTrade (b : OrderBook) (o : OrderEntry) (candId : Nat) (cand : OrderEntry)
    (rem : Nat) : Trade :=
  { trade_id := b.next_trade_id
    maker_order_id := candId
    maker_user_id := cand.user_id
    taker_order_id := o.order_id
    taker_user_id := o.user_id
    symbol := b.symbol
    price := cand.price
    quantity := min rem cand.remaining_quantity
    timestamp := 0 }

/-- Modelled from the spec: step 2f applied to the book — consume the trade id
and apply `update_order_quantity` (the source `update_fill`) to the candidate. -/
def stepBook (b : OrderBook) (candId fq : Nat) : OrderBook :=
  ({ b with next_trade_id := b.next_trade_id + 1 }).update_order_quantity candId fq

/-- Modelled from the spec: one iteration of the match loop (steps 2a-2g).
`none` means the loop stops: taker exhausted, no candidate, or candidate not
marketable. -/
def matchStep (b : OrderBook) (o : OrderEntry) (rem : Nat) (lp : Option Nat) :
    Option (Trade × OrderBook × Nat) :=
  if rem = 0 then none
  else
    (b.get_next_matchable_order o.side).bind fun candId =>
      (alookup candId b.orders).bind fun cand =>
        if marketable o.side lp cand.price then
          some (mkTrade b o candId cand rem,
                stepBook b candId (min rem cand.remaining_quantity),
                rem - min rem cand.remaining_quantity)
        else none

/-- Modelled from the spec: the match loop, fuelled; records each fill with
its pre-state. -/
def runMatch : Nat → OrderBook → OrderEntry → Nat → Option Nat →
    List StepRec × OrderBook × Nat
  | 0, b, _, rem, _ => ([], b, rem)
  | Nat.succ fuel, b, o, rem, lp =>
    match matchStep b o rem lp with
    | none => ([], b, rem)
    | some (tr, b2, rem2) =>
      let rest := runMatch fuel b2 o rem2 lp
      ({ preBook := b, preRem := rem, trade := tr } :: rest.1, rest.2)

/-- Modelled from the spec: residual policy of a limit order (step 3) — rest
the residual via `add_order`. -/
def limitTail (o : OrderEntry) : List StepRec × OrderBook × Nat →
    OrderBook × Except OrderBookError MatchResult
  | (steps, b1, rem) =>
    if 0 < rem then
      match b1.add_order { o with remaining_quantity := rem } with
      | Except.ok b2 => (b2, Except.ok { steps := steps, remaining := rem })
      | Except.error e => (b1, Except.error e)
    else (b1, Except.ok { steps := steps, remaining := rem })

/-- Modelled from the spec: residual policy of a market order (step 3) — the
residual is abandoned. -/
def marketTail : List StepRec × OrderBook × Nat →
    OrderBook × Except OrderBookError MatchResult
  | (steps, b1, rem) => (b1, Except.ok { steps := steps, remaining := rem })

/-- `OrderBook::match_limit_order`: the validation prefix is the source's; the
loop and residual policy are modelled from spec section 4.3. -/
def OrderBook.match_limit_order (b : OrderBook) (o : OrderEntry) (fuel : Nat) :
    OrderBook × Except OrderBookError MatchResult :=
  match o.validate_order with
  | Except.error e => (b, Except.error e)
  | Except.ok _ => limitTail o (runMatch fuel b o o.quantity (some o.price))

/-- `OrderBook::match_market_order`: the validation prefix is the source's; the
loop is modelled from spec section 4.3 with no price bound. -/
def OrderBook.match_market_order (b : OrderBook) (o : OrderEntry) (fuel : Nat) :
    OrderBook × Except OrderBookError MatchResult :=
  match o.validate_order with
  | Except.error e => (b, Except.error e)
  | Except.ok _ => marketTail (runMatch fuel b o o.quantity none)

/-! ### Market-data aggregator (`market-data/src/aggregator.rs`)

The event union of `market-data/src/types.rs` is absent from the sources; the
`TradeEvent` and `DepthEvent` shapes below are pinned by
`market-data/src/tests.rs`.  Only the event arms the aggregator claims concern
are modelled.  `Utc::now()` is passed in explicitly as `now`. -/

/-- Public trade event (field shape from the market-data tests). -/
structure TradeEvent where
  trade_id : Nat
  symbol : String
  price : Nat
  quantity : Nat
  timestamp : Int
deriving DecidableEq

/-- Public depth event (field shape from the market-data tests; the per-level
entries are (price, quantity) pairs). -/
structure DepthEvent where
  symbol : String
  bids : List (Nat × Nat)
  asks : List (Nat × Nat)
  timestamp : Int
  last_price : Option Nat
deriving DecidableEq

/-- The market-data event union, restricted to the arms the claims concern. -/
inductive WSEvent where
  | Trade (t : TradeEvent)
  | Depth (d : DepthEvent)
deriving DecidableEq

/-- `u64::MAX`. -/
def UMAX : Nat := 2 ^ 64 - 1

/-- `u64::saturating_add`. -/
def satAdd (a b : Nat) : Nat := min (a + b) UMAX

/-- Per-symbol ticker state (`TickerState` in `aggregator.rs`). -/
structure TickerState where
  last_price : Option Nat
  open_24h : Option Nat
  high_24h : Nat
  low_24h : Nat
  volume_24h : Nat
  last_trade_time : Int
deriving DecidableEq

/-- `TickerState::new`: no trades yet; `low_24h` starts at `u64::MAX`. -/
def TickerState.new : TickerState :=
  { last_price := none, open_24h := none, high_24h := 0, low_24h := UMAX
    volume_24h := 0, last_trade_time := 0 }

/-- `Aggregator::update_ticker_from_trade`, acting on the symbol's state: the
first trade initialises open/high/low, every trade sets `last_price` and
`last_trade_time`, saturating-adds the volume and widens high/low. -/
def TickerState.update_ticker_from_trade (s : TickerState) (t : TradeEvent) : TickerState :=
  let s1 := if s.open_24h = none then
    { s with open_24h := some t.price, high_24h := t.price, low_24h := t.price }
  else s
  let s2 := { s1 with last_price := some t.price, last_trade_time := t.timestamp }
  let s3 := { s2 with volume_24h := satAdd s2.volume_24h t.quantity }
  let s4 := if s3.open_24h = none then { s3 with open_24h := some t.price } else s3
  let s5 := if t.price > s4.high_24h then { s4 with high_24h := t.price } else s4
  if t.price < s5.low_24h then { s5 with low_24h := t.price } else s5

/-- The aggregator state (`Aggregator` in `aggregator.rs`). -/
structure Aggregator where
  last_depth : List (String × DepthEvent)
  last_depth_emit : List (String × Int)
  depth_interval_ms : Int
  ticker_state : List (String × TickerState)
deriving DecidableEq

/-- `Aggregator::new`: 100 ms depth interval. -/
def Aggregator.new : Aggregator :=
  { last_depth := [], last_depth_emit := [], depth_interval_ms := 100, ticker_state := [] }

/-- The `Event::Trade` ticker update at the aggregator level (the
`entry().or_insert_with(TickerState::new)` pattern of the source). -/
def Aggregator.update_ticker_from_trade (a : Aggregator) (t : TradeEvent) : Aggregator :=
  let s := (alookup t.symbol a.ticker_state).getD TickerState.new
  { a with ticker_state := hmInsert t.symbol (s.update_ticker_from_trade t) a.ticker_state }

/-- The `Event::Depth` arm of `Aggregator::process`: overwrite the stored
latest depth; when `now - last_emit >= depth_interval_ms`, record the emit
time and emit the stored latest depth, otherwise emit nothing. -/
def Aggregator.process_depth (a : Aggregator) (d : DepthEvent) (now : Int) :
    Aggregator × List WSEvent :=
  let a1 : Aggregator := { a with last_depth := hmInsert d.symbol d a.last_depth }
  let last_emit : Int := (alookup d.symbol a1.last_depth_emit).getD 0
  if a1.depth_interval_ms ≤ now - last_emit then
    let a2 : Aggregator := { a1 with last_depth_emit := hmInsert d.symbol now a1.last_depth_emit }
    match alookup d.symbol a2.last_depth with
    | some latest => (a2, [WSEvent.Depth latest])
    | none => (a2, [])
  else (a1, [])

/-! ### Claims about the engine loop -/

/-- Claim C1: for every `CancelOrder` command the engine loop is claimed to
look the order up, reject on a missing id or a user mismatch, and only
otherwise remove and emit `OrderCancelled(UserRequested)`.  The code instead
emits `OrderCancelled(UserRequested)` unconditionally for every cancel
command, consults no book and no user id, and never emits a reject. -/
theorem handle_cancel_order_unconditional :
    ∀ c : CancelOrder, handle_cancel_order c =
      [Event.OrderCancelled c.order_id c.user_id c.symbol CancelReason.UserRequested] :=
  fun _ => rfl

/-- Claim C4: a `PlaceOrder` of a Limit order without a positive price is
claimed to be rejected; the code validates only the quantity and acks this
Limit order that carries no price at all. -/
theorem place_limit_without_price_acks :
    handle_place_order
        { order_id := 1, user_id := 1, symbol := "S", side := Side.Buy
          order_type := OrderType.Limit, quantity := 1, price := none } =
      [Event.OrderAck 1 1 ("S")] :=
  rfl

/-! ### Claims about `update_order_quantity` and the depth cache -/

/-- The resting order used by the C2 scenario. -/
def entryC2 : OrderEntry :=
  { order_id := 1, user_id := 7, side := Side.Buy, price := 100
    quantity := 5, remaining_quantity := 5, timestamp := 0 }

/-- A book holding exactly `entryC2`. -/
def bookC2 : OrderBook :=
  match (OrderBook.new ("S")).add_order entryC2 with
  | Except.ok b => b
  | Except.error _ => OrderBook.new ("S")

/-- Claim C2: a full fill through `update_order_quantity` is claimed to erase
the order from the index and prune the emptied level, symmetrically with
`remove_order`.  Evaluating the code: after filling the whole remaining
quantity the order is still in the index (with `remaining_quantity = 0`), the
emptied level is still in the bids ladder, and `best_bid` still points at it. -/
theorem update_full_fill_leaves_order_and_level :
    alookup 1 (bookC2.update_order_quantity 1 5).orders =
        some { entryC2 with remaining_quantity := 0 } ∧
      alookup 100 (bookC2.update_order_quantity 1 5).bids =
        some { price := 100, orders := [], total_quantity := 0 } ∧
      (bookC2.update_order_quantity 1 5).best_bid = some 100 := by
  decide

/-- The resting order used by the C3 scenario. -/
def entryC3 : OrderEntry :=
  { order_id := 1, user_id := 7, side := Side.Buy, price := 100
    quantity := 5, remaining_quantity := 5, timestamp := 0 }

/-- A book holding exactly `entryC3`. -/
def bookC3 : OrderBook :=
  match (OrderBook.new ("S")).add_order entryC3 with
  | Except.ok b => b
  | Except.error _ => OrderBook.new ("S")

/-- The C3 scenario: serve a depth query (which cleans the cache), then fill 3
of the 5 resting units through `update_order_quantity`. -/
def bookC3after : OrderBook :=
  ((bookC3.get_depth CACHE_LIMIT).2).update_order_quantity 1 3

/-- Claim C3: every ladder mutation is claimed to set the depth cache's dirty
flag.  Evaluating the code: after the C3 scenario the flag is still clear
(`is_latest = true`) while the cache front reads `(100, 5)` against an actual
level total of 2 — a stale cache behind a clear flag, violating invariant I4. -/
theorem update_fill_leaves_cache_clean_and_stale :
    bookC3after.depth_cache.is_latest = true ∧
      bookC3after.depth_cache.bids.head? = some (100, 5) ∧
      alookup 100 bookC3after.bids =
        some { price := 100, orders := [1], total_quantity := 2 } := by
  decide

/-- The resting order used by the C6 scenario. -/
def entryC6 : OrderEntry :=
  { order_id := 1, user_id := 7, side := Side.Buy, price := 100
    quantity := 5, remaining_quantity := 5, timestamp := 0 }

/-- A book holding exactly `entryC6`. -/
def bookC6 : OrderBook :=
  match (OrderBook.new ("S")).add_order entryC6 with
  | Except.ok b => b
  | Except.error _ => OrderBook.new ("S")

/-- Claim C6: `get_depth` is claimed to return only existing price levels.
Evaluating the code on a book with the single bid level 100: `get_depth 2`
returns a second bid entry `(0, 0)` and two ask entries `(0, 0)` although no
level exists at price 0 on either side — the fixed-size cache array is sliced
by its own (constant) length, so its zero padding is served as depth. -/
theorem get_depth_returns_padding :
    ((bookC6.get_depth 2).1).bids = [(100, 5), (0, 0)] ∧
      ((bookC6.get_depth 2).1).asks = [(0, 0), (0, 0)] ∧
      alookup 0 bookC6.bids = none ∧ alookup 0 bookC6.asks = none := by
  decide

/-- Claim C10: `update_order_quantity` with an unknown id, or with a fill
larger than the order's remaining quantity, leaves the whole book unchanged. -/
theorem update_order_quantity_noop :
    ∀ (b : OrderBook) (oid fq : Nat),
      (alookup oid b.orders = none ∨
        ∃ o, alookup oid b.orders = some o ∧ o.remaining_quantity < fq) →
      b.update_order_quantity oid fq = b := by
  intro b oid fq h
  rcases h with h | ⟨o, ho, hlt⟩
  · unfold OrderBook.update_order_quantity
    rw [h]
  · have hfill : o.fill fq = Except.error (OrderBookError.InvalidOrder
        ("Quantity must be less than or equal to the remaining quantity")) := by
      unfold OrderEntry.fill
      exact if_pos hlt
    unfold OrderBook.update_order_quantity
    simp only [ho, hfill]

/-- The book used by the C10 witness. -/
def bookC10 : OrderBook :=
  match (OrderBook.new ("S")).add_order
      { order_id := 1, user_id := 7, side := Side.Buy, price := 100
        quantity := 5, remaining_quantity := 5, timestamp := 0 } with
  | Except.ok b => b
  | Except.error _ => OrderBook.new ("S")

/-- Witness for C10: order id 2 is absent from `bookC10`, and the update with
it is a no-op. -/
theorem update_order_quantity_noop_witness :
    alookup 2 bookC10.orders = none ∧ bookC10.update_order_quantity 2 1 = bookC10 :=
  ⟨by decide, update_order_quantity_noop bookC10 2 1 (Or.inl (by decide))⟩

/-! ### Claims about matcher validation -/

/-- Counterexample to claim C7 as stated: a market order with price 0 and
positive quantity is claimed to pass validation (price ignored for market
orders); the code routes market orders through the same `validate_order`,
which rejects the zero price. -/
theorem market_order_price_zero_rejected :
    (OrderBook.new ("S")).match_market_order
        { order_id := 9, user_id := 3, side := Side.Buy, price := 0
          quantity := 1, remaining_quantity := 1, timestamp := 0 } 5 =
      (OrderBook.new ("S"),
        Except.error (OrderBookError.InvalidOrder ("Price must be greater than 0"))) := by
  decide

/-- Claim C7 (amended): matcher validation checks `qty > 0` and `price > 0`
for every order, market orders included; a failing order yields
`InvalidOrder` from both entry points and the book is returned unchanged. -/
theorem matcher_validation_qty_and_price :
    ∀ o : OrderEntry, (o.quantity = 0 ∨ o.price = 0) →
      ∃ m, o.validate_order = Except.error (OrderBookError.InvalidOrder m) ∧
        ∀ (b : OrderBook) (fuel : Nat),
          b.match_market_order o fuel =
              (b, Except.error (OrderBookError.InvalidOrder m)) ∧
            b.match_limit_order o fuel =
              (b, Except.error (OrderBookError.InvalidOrder m)) := by
  intro o h
  by_cases hq : o.quantity = 0
  · refine ⟨("Quantity must be greater than 0"), ?_, ?_⟩
    · unfold OrderEntry.validate_order
      rw [if_pos hq]
    · intro b fuel
      constructor
      · unfold OrderBook.match_market_order OrderEntry.validate_order
        simp only [if_pos hq]
      · unfold OrderBook.match_limit_order OrderEntry.validate_order
        simp only [if_pos hq]
  · have hp : o.price = 0 := h.resolve_left hq
    refine ⟨("Price must be greater than 0"), ?_, ?_⟩
    · unfold OrderEntry.validate_order
      rw [if_neg hq, if_pos hp]
    · intro b fuel
      constructor
      · unfold OrderBook.match_market_order OrderEntry.validate_order
        simp only [if_neg hq, if_pos hp]
      · unfold OrderBook.match_limit_order OrderEntry.validate_order
        simp only [if_neg hq, if_pos hp]

/-- Witness for C7 (amended), at a market sell with zero quantity. -/
theorem matcher_validation_qty_and_price_witness :
    ∃ m, OrderEntry.validate_order
          { order_id := 4, user_id := 2, side := Side.Sell, price := 50
            quantity := 0, remaining_quantity := 0, timestamp := 0 } =
        Except.error (OrderBookError.InvalidOrder m) ∧
      ∀ (b : OrderBook) (fuel : Nat),
        b.match_market_order
            { order_id := 4, user_id := 2, side := Side.Sell, price := 50
              quantity := 0, remaining_quantity := 0, timestamp := 0 } fuel =
            (b, Except.error (OrderBookError.InvalidOrder m)) ∧
          b.match_limit_order
            { order_id := 4, user_id := 2, side := Side.Sell, price := 50
              quantity := 0, remaining_quantity := 0, timestamp := 0 } fuel =
            (b, Except.error (OrderBookError.InvalidOrder m)) :=
  matcher_validation_qty_and_price
    { order_id := 4, user_id := 2, side := Side.Sell, price := 50
      quantity := 0, remaining_quantity := 0, timestamp := 0 } (Or.inl rfl)

/-! ### Claim about the trades emitted by the matcher -/

/-- Every successful `matchStep` fill prices at the candidate found in the
pre-state book and fills the minimum of the two remaining quantities. -/
theorem matchStep_sound (b : OrderBook) (o : OrderEntry) (rem : Nat) (lp : Option Nat)
    (tr : Trade) (b2 : OrderBook) (rem2 : Nat)
    (h : matchStep b o rem lp = some (tr, b2, rem2)) :
    ∃ cand, alookup tr.maker_order_id b.orders = some cand ∧
      tr.price = cand.price ∧ tr.quantity = min rem cand.remaining_quantity := by
  unfold matchStep at h
  by_cases h0 : rem = 0
  · rw [if_pos h0] at h
    exact absurd h (by simp)
  · rw [if_neg h0] at h
    rw [Option.bind_eq_some] at h
    obtain ⟨candId, hcid, h⟩ := h
    rw [Option.bind_eq_some] at h
    obtain ⟨cand, hcand, h⟩ := h
    by_cases hm : marketable o.side lp cand.price
    · rw [if_pos hm] at h
      rw [Option.some.injEq] at h
      have h1 : mkTrade b o candId cand rem = tr := congrArg Prod.fst h
      rw [← h1]
      exact ⟨cand, hcand, rfl, rfl⟩
    · rw [if_neg hm] at h
      exact absurd h (by simp)

/-- Every fill recorded by the match loop prices at a candidate found in the
order index of the book state just before that fill, and fills the minimum of
the taker's and the candidate's remaining quantities at that moment. -/
theorem runMatch_sound (fuel : Nat) :
    ∀ (b : OrderBook) (o : OrderEntry) (rem : Nat) (lp : Option Nat) (s : StepRec),
      s ∈ (runMatch fuel b o rem lp).1 →
      ∃ cand, alookup s.trade.maker_order_id s.preBook.orders = some cand ∧
        s.trade.price = cand.price ∧
        s.trade.quantity = min s.preRem cand.remaining_quantity := by
  induction fuel with
  | zero =>
    intro b o rem lp s hs
    simp [runMatch] at hs
  | succ fuel ih =>
    intro b o rem lp s hs
    unfold runMatch at hs
    revert hs
    cases hstep : matchStep b o rem lp with
    | none =>
      intro hs
      simp at hs
    | some v =>
      obtain ⟨tr, b2, rem2⟩ := v
      intro hs
      rw [List.mem_cons] at hs
      rcases hs with hs | hs
      · subst hs
        exact matchStep_sound b o rem lp tr b2 rem2 hstep
      · exact ih b2 o rem2 lp s hs

/-- A successful limit-order match call returns exactly the fills recorded by
the loop. -/
theorem match_limit_ok_steps (b : OrderBook) (o : OrderEntry) (fuel : Nat)
    (b1 : OrderBook) (r : MatchResult)
    (h : b.match_limit_order o fuel = (b1, Except.ok r)) :
    r.steps = (runMatch fuel b o o.quantity (some o.price)).1 := by
  unfold OrderBook.match_limit_order at h
  split at h
  · rw [Prod.mk.injEq] at h
    exact absurd h.2 (by simp)
  · rcases hrm : runMatch fuel b o o.quantity (some o.price) with ⟨steps, bm, rem⟩
    simp only [limitTail] at h
    split at h
    · split at h
      · rw [Prod.mk.injEq] at h
        have h2 := h.2
        rw [Except.ok.injEq] at h2
        rw [← h2, hrm]
      · rw [Prod.mk.injEq] at h
        exact absurd h.2 (by simp)
    · rw [Prod.mk.injEq] at h
      have h2 := h.2
      rw [Except.ok.injEq] at h2
      rw [← h2, hrm]

/-- A successful market-order match call returns exactly the fills recorded by
the loop. -/
theorem match_market_ok_steps (b : OrderBook) (o : OrderEntry) (fuel : Nat)
    (b1 : OrderBook) (r : MatchResult)
    (h : b.match_market_order o fuel = (b1, Except.ok r)) :
    r.steps = (runMatch fuel b o o.quantity none).1 := by
  unfold OrderBook.match_market_order at h
  split at h
  · rw [Prod.mk.injEq] at h
    exact absurd h.2 (by simp)
  · rcases hrm : runMatch fuel b o o.quantity none with ⟨steps, bm, rem⟩
    simp only [marketTail] at h
    rw [Prod.mk.injEq] at h
    have h2 := h.2
    rw [Except.ok.injEq] at h2
    rw [← h2, hrm]

/-- Claim C5: every trade emitted by `match_limit_order` or
`match_market_order` is priced at the maker (resting candidate) order's
price as found in the book at the moment of the fill — never the taker's
price — and fills the minimum of the taker's and the candidate's remaining
quantities at that moment. -/
theorem match_trade_price_maker :
    ∀ (b : OrderBook) (o : OrderEntry) (fuel : Nat) (b1 : OrderBook) (r : MatchResult),
      (b.match_limit_order o fuel = (b1, Except.ok r) ∨
        b.match_market_order o fuel = (b1, Except.ok r)) →
      ∀ t ∈ r.trades, ∃ s ∈ r.steps, t = s.trade ∧
        ∃ cand, alookup t.maker_order_id s.preBook.orders = some cand ∧
          t.price = cand.price ∧ t.quantity = min s.preRem cand.remaining_quantity := by
  intro b o fuel b1 r h t ht
  rw [MatchResult.trades, List.mem_map] at ht
  obtain ⟨s, hs, hts⟩ := ht
  refine ⟨s, hs, hts.symm, ?_⟩
  rcases h with h | h
  · rw [match_limit_ok_steps b o fuel b1 r h] at hs
    obtain ⟨cand, h1, h2, h3⟩ := runMatch_sound fuel b o o.quantity (some o.price) s hs
    exact ⟨cand, hts ▸ h1, hts ▸ h2, hts ▸ h3⟩
  · rw [match_market_ok_steps b o fuel b1 r h] at hs
    obtain ⟨cand, h1, h2, h3⟩ := runMatch_sound fuel b o o.quantity none s hs
    exact ⟨cand, hts ▸ h1, hts ▸ h2, hts ▸ h3⟩

/-- A book holding one resting sell (id 1, price 100, qty 5) for the C5 witness. -/
def bookC5 : OrderBook :=
  match (OrderBook.new ("S")).add_order
      { order_id := 1, user_id := 10, side := Side.Sell, price := 100
        quantity := 5, remaining_quantity := 5, timestamp := 0 } with
  | Except.ok b => b
  | Except.error _ => OrderBook.new ("S")

/-- The incoming taker of the C5 witness: buy 3 at limit 100. -/
def takerC5 : OrderEntry :=
  { order_id := 2, user_id := 20, side := Side.Buy, price := 100
    quantity := 3, remaining_quantity := 3, timestamp := 0 }

/-- The book returned by the C5 witness match call. -/
def bookC5r : OrderBook := (bookC5.match_limit_order takerC5 1).1

/-- The match result of the C5 witness call. -/
def resC5 : MatchResult :=
  match (bookC5.match_limit_order takerC5 1).2 with
  | Except.ok r => r
  | Except.error _ => { steps := [], remaining := 0 }

/-- The first trade of the C5 witness call. -/
def tradeC5 : Trade :=
  (resC5.trades).headD
    { trade_id := 0, maker_order_id := 0, maker_user_id := 0, taker_order_id := 0
      taker_user_id := 0, symbol := "", price := 0, quantity := 0, timestamp := 0 }

/-- Witness for C5: on `bookC5` the marketable buy fills once; the emitted
trade is priced at the maker's resting price. -/
theorem match_trade_price_maker_witness :
    ∃ s ∈ resC5.steps, tradeC5 = s.trade ∧
      ∃ cand, alookup tradeC5.maker_order_id s.preBook.orders = some cand ∧
        tradeC5.price = cand.price ∧
        tradeC5.quantity = min s.preRem cand.remaining_quantity :=
  match_trade_price_maker bookC5 takerC5 1 bookC5r resC5 (Or.inl (by decide))
    tradeC5 (by decide)

/-! ### Claims about the aggregator -/

/-- Claim C8: the first trade initialises `open_24h = high_24h = low_24h` to
its price, and every ticker update keeps `high_24h ≥ last_price ≥ low_24h`
while the (saturating) volume never decreases. -/
theorem ticker_first_trade_and_monotone :
    (∀ t : TradeEvent,
        (TickerState.new.update_ticker_from_trade t).open_24h = some t.price ∧
          (TickerState.new.update_ticker_from_trade t).high_24h = t.price ∧
          (TickerState.new.update_ticker_from_trade t).low_24h = t.price ∧
          (TickerState.new.update_ticker_from_trade t).last_price = some t.price) ∧
      ∀ (s : TickerState) (t : TradeEvent), s.volume_24h ≤ UMAX →
        (s.update_ticker_from_trade t).last_price = some t.price ∧
          t.price ≤ (s.update_ticker_from_trade t).high_24h ∧
          (s.update_ticker_from_trade t).low_24h ≤ t.price ∧
          s.volume_24h ≤ (s.update_ticker_from_trade t).volume_24h ∧
          (s.update_ticker_from_trade t).volume_24h ≤ UMAX := by
  constructor
  · intro t
    simp [TickerState.update_ticker_from_trade, TickerState.new]
  · intro s t hv
    unfold TickerState.update_ticker_from_trade
    by_cases ho : s.open_24h = none <;>
      simp only [ho, if_true, if_false, reduceIte] <;>
      split_ifs <;>
      simp_all [satAdd, UMAX]

/-- Witness for C8: the monotone part applied to the fresh ticker state and a
trade at price 100 for quantity 10. -/
theorem ticker_first_trade_and_monotone_witness :
    (TickerState.new.update_ticker_from_trade
          { trade_id := 1, symbol := "S", price := 100, quantity := 10
            timestamp := 5 }).last_price = some 100 ∧
      100 ≤ (TickerState.new.update_ticker_from_trade
          { trade_id := 1, symbol := "S", price := 100, quantity := 10
            timestamp := 5 }).high_24h ∧
      (TickerState.new.update_ticker_from_trade
          { trade_id := 1, symbol := "S", price := 100, quantity := 10
            timestamp := 5 }).low_24h ≤ 100 ∧
      TickerState.new.volume_24h ≤ (TickerState.new.update_ticker_from_trade
          { trade_id := 1, symbol := "S", price := 100, quantity := 10
            timestamp := 5 }).volume_24h ∧
      (TickerState.new.update_ticker_from_trade
          { trade_id := 1, symbol := "S", price := 100, quantity := 10
            timestamp := 5 }).volume_24h ≤ UMAX :=
  ticker_first_trade_and_monotone.2 TickerState.new
    { trade_id := 1, symbol := "S", price := 100, quantity := 10, timestamp := 5 }
    (by decide)

/-- When the Depth arm emits anything, the throttle condition held, the emit
timestamp was recorded as `now`, and the interval parameter is untouched. -/
theorem process_depth_emit_state (a : Aggregator) (d : DepthEvent) (now : Int)
    (h : (a.process_depth d now).2 ≠ []) :
    a.depth_interval_ms ≤ now - (alookup d.symbol a.last_depth_emit).getD 0 ∧
      ((a.process_depth d now).1).last_depth_emit =
        hmInsert d.symbol now a.last_depth_emit ∧
      ((a.process_depth d now).1).depth_interval_ms = a.depth_interval_ms := by
  revert h
  by_cases hc : a.depth_interval_ms ≤ now - (alookup d.symbol a.last_depth_emit).getD 0
  · intro _
    refine ⟨hc, ?_, ?_⟩ <;>
      simp [Aggregator.process_depth, hc, hmInsert, alookup]
  · intro h
    exfalso
    apply h
    simp [Aggregator.process_depth, hc]

/-- Claim C9: the Depth arm of `Aggregator::process` always overwrites the
stored latest depth for the symbol; it emits exactly when
`now - last_emit ≥ depth_interval_ms`, recording `now` as the new emit time
and emitting the stored latest depth, and otherwise emits nothing and leaves
the emit times untouched; hence two consecutive emissions for one symbol are
at least `depth_interval_ms` apart. -/
theorem aggregator_depth_debounce :
    (∀ (a : Aggregator) (d : DepthEvent) (now : Int),
        alookup d.symbol ((a.process_depth d now).1).last_depth = some d) ∧
      (∀ (a : Aggregator) (d : DepthEvent) (now : Int),
        (a.depth_interval_ms ≤ now - (alookup d.symbol a.last_depth_emit).getD 0 →
          (a.process_depth d now).2 = [WSEvent.Depth d] ∧
            alookup d.symbol ((a.process_depth d now).1).last_depth_emit = some now) ∧
        (now - (alookup d.symbol a.last_depth_emit).getD 0 < a.depth_interval_ms →
          (a.process_depth d now).2 = [] ∧
            ((a.process_depth d now).1).last_depth_emit = a.last_depth_emit)) ∧
      ∀ (a : Aggregator) (d1 d2 : DepthEvent) (t1 t2 : Int),
        d2.symbol = d1.symbol →
        (a.process_depth d1 t1).2 ≠ [] →
        (((a.process_depth d1 t1).1).process_depth d2 t2).2 ≠ [] →
        a.depth_interval_ms ≤ t2 - t1 := by
  refine ⟨?_, ?_, ?_⟩
  · intro a d now
    by_cases hc : a.depth_interval_ms ≤ now - (alookup d.symbol a.last_depth_emit).getD 0 <;>
      simp [Aggregator.process_depth, hc, hmInsert, alookup]
  · intro a d now
    constructor
    · intro hc
      constructor <;>
        simp [Aggregator.process_depth, hc, hmInsert, alookup]
    · intro hc
      constructor <;>
        simp [Aggregator.process_depth, not_le.mpr hc, hmInsert, alookup]
  · intro a d1 d2 t1 t2 hsym h1 h2
    obtain ⟨-, hemit, hint⟩ := process_depth_emit_state a d1 t1 h1
    obtain ⟨hc2, -, -⟩ := process_depth_emit_state ((a.process_depth d1 t1).1) d2 t2 h2
    rw [hint, hemit, hsym, alookup_hmInsert_self] at hc2
    exact hc2

/-- The depth event used by the C9 witness. -/
def depthC9 : DepthEvent :=
  { symbol := "S", bids := [], asks := [], timestamp := 0, last_price := none }

/-- Witness for C9: from the fresh aggregator, depth events at t=100 and
t=200 both emit, and the theorem yields the 100 ms spacing bound. -/
theorem aggregator_depth_debounce_witness :
    Aggregator.new.depth_interval_ms ≤ (200 : Int) - 100 :=
  aggregator_depth_debounce.2.2 Aggregator.new depthC9 depthC9 100 200 rfl
    (by decide) (by decide)

end CEXY
